import Mathlib

/-!
Verification of the xlsx_readers repository (Go).

Go strings are modelled as `List Char` (all data exercised by the claims is
ASCII, where Go's byte-level indexing agrees with character-level indexing).
Go's `int32` values are modelled as `Int`; the two wrap-around sites
(column accumulation in `parseCellReference`, row parsing) stay far below
2^31 on every input exercised by the claims, so two's-complement reduction
is omitted.  `strconv.Atoi` / `strconv.ParseInt` are modelled without the
range-clamping of `ErrRange` (no claim input comes near the 64-bit range);
a syntax error is `none`, and Go's convention of returning value `0`
alongside a syntax error is captured by `goAtoiOr0`.
-/

namespace XmlReaders

/-- Digit run of Go's `strconv.Atoi`: consumes the whole list, failing on the
first non-digit character, accumulating `acc * 10 + digit`. -/
def parseDigits : List Char → Nat → Option Nat
  | [], acc => some acc
  | c :: cs, acc =>
    if '0'.toNat ≤ c.toNat ∧ c.toNat ≤ '9'.toNat then
      parseDigits cs (acc * 10 + (c.toNat - '0'.toNat))
    else none

/-- Model of Go's `strconv.Atoi` (also `strconv.ParseInt(s, 10, 32)` as used by
the sources): optional sign, then a nonempty digit run; anything else is a
syntax error (`none`). -/
def goAtoi : List Char → Option Int
  | [] => none
  | c :: cs =>
    if c = '+' then
      if cs = [] then none else (parseDigits cs 0).map (fun n => (n : Int))
    else if c = '-' then
      if cs = [] then none else (parseDigits cs 0).map (fun n => -(n : Int))
    else (parseDigits (c :: cs) 0).map (fun n => (n : Int))

/-- Value of `strconv.Atoi` when the caller ignores the error: Go returns `0`
together with a syntax error. -/
def goAtoiOr0 (cs : List Char) : Int := (goAtoi cs).getD 0

/-- Loop of `parseCellReference` (src/xlsx_reader.go lines 496-510): uppercase
letters accumulate the column in bijective base 26; the first other character
starts the row, parsed by `Atoi` on the remaining slice with the error
ignored, and the loop breaks. -/
def parseCellRefLoop : List Char → Int → Int × Int
  | [], col => (col, 0)
  | c :: cs, col =>
    if 'A'.toNat ≤ c.toNat ∧ c.toNat ≤ 'Z'.toNat then
      parseCellRefLoop cs (col * 26 + ((c.toNat - 'A'.toNat + 1 : Nat) : Int))
    else (col, goAtoiOr0 (c :: cs))

/-- Model of `parseCellReference` (src/xlsx_reader.go lines 496-510): decodes a
reference such as "A1" into (column, row). -/
def parseCellReference (ref : List Char) : Int × Int := parseCellRefLoop ref 0

/-- Fuel-indexed form of the column-letter loop of
`cellReferenceFromCoordinates`; the fuel is only a structural-termination
device (the Go loop terminates because `(col-1)/26 < col`), and
`colLettersAux_extra` shows any fuel at least the column value gives the
same answer. -/
def colLettersAux : Nat → Nat → List Char
  | 0, _ => []
  | fuel + 1, n =>
    match n with
    | 0 => []
    | m + 1 => colLettersAux fuel (m / 26) ++ [Char.ofNat ('A'.toNat + m % 26)]

/-- Column-letter loop of `cellReferenceFromCoordinates`, indexed by the
column value: while `col > 0`, prepend `'A' + (col-1) % 26` and divide. -/
def colLetters (n : Nat) : List Char := colLettersAux n n

/-- Fuel-indexed decimal printing; again the fuel is only a termination
device. -/
def natToDigitsAux : Nat → Nat → List Char
  | 0, _ => []
  | fuel + 1, n =>
    if n < 10 then [Char.ofNat ('0'.toNat + n)]
    else natToDigitsAux fuel (n / 10) ++ [Char.ofNat ('0'.toNat + n % 10)]

/-- Decimal digits of a natural number, as printed by Go's `fmt.Sprintf("%d")`. -/
def natToDigits (n : Nat) : List Char := natToDigitsAux (n + 1) n

/-- Decimal printing of an `Int` by `fmt.Sprintf("%d")`. -/
def intToDigits (i : Int) : List Char :=
  if i < 0 then '-' :: natToDigits (-i).toNat else natToDigits i.toNat

/-- Model of `cellReferenceFromCoordinates` (src/xlsx_reader.go lines 524-531):
the column letters (empty when `col ≤ 0`, exactly as the Go loop does not run)
followed by the decimal row. -/
def cellReferenceFromCoordinates (col row : Int) : List Char :=
  colLetters col.toNat ++ intToDigits row

/-- Model of Go's `strings.Split` on a single-character separator. -/
def goSplit (sep : Char) : List Char → List (List Char)
  | [] => [[]]
  | c :: cs =>
    if c = sep then [] :: goSplit sep cs
    else
      match goSplit sep cs with
      | [] => [[c]]
      | p :: ps => (c :: p) :: ps

/-- Model of `parseMergedCellRange` (src/xlsx_reader.go lines 513-521):
splits on ':' and decodes both ends, returning
(startCol, startRow, endCol, endRow); zeroes when the split is not a pair. -/
def parseMergedCellRange (ref : List Char) : Int × Int × Int × Int :=
  match goSplit ':' ref with
  | [a, b] =>
    ((parseCellReference a).1, (parseCellReference a).2,
     (parseCellReference b).1, (parseCellReference b).2)
  | _ => (0, 0, 0, 0)

/-- Model of the `MergedCell` struct (src/xlsx_reader.go lines 35-40). -/
structure MergedCell where
  StartRow : Int
  StartColumn : Int
  EndRow : Int
  EndColumn : Int
deriving DecidableEq, Repr

/-- The range label built in the merge-expansion loops (src/xlsx_reader.go
lines 374-376): `fmt.Sprintf("%s:%s", startCell, endCell)`. -/
def mergedRangeLabel (mc : MergedCell) : List Char :=
  cellReferenceFromCoordinates mc.StartColumn mc.StartRow
    ++ ':' :: cellReferenceFromCoordinates mc.EndColumn mc.EndRow

/-- Inclusive integer interval [lo, hi], the values taken by a Go
`for x := lo; x <= hi; x++` loop. -/
def intRange (lo hi : Int) : List Int :=
  (List.range (hi + 1 - lo).toNat).map (fun i : Nat => lo + (i : Int))

/-- Key/label pairs written by the expansion loops for one merged range
(src/xlsx_reader.go lines 378-383, src/unnamed/part_002 lines 173-178):
outer loop over columns, inner loop over rows. -/
def expandMergedCell (mc : MergedCell) : List (List Char × List Char) :=
  (intRange mc.StartColumn mc.EndColumn).flatMap (fun col =>
    (intRange mc.StartRow mc.EndRow).map (fun row =>
      (cellReferenceFromCoordinates col row, mergedRangeLabel mc)))

/-- Model of `PreAllocateMergedCells` (src/unnamed/part_002 lines 166-181) and
of the identical inline loop of `main` (src/xlsx_reader.go lines 372-384):
the Go map is modelled as the ordered list of writes. -/
def preAllocateMergedCells (mcs : List MergedCell) : List (List Char × List Char) :=
  mcs.flatMap expandMergedCell

/-- Lookup in the write-list model of a Go `map[string]string`: the last
write to a key wins. -/
def goMapLookup (m : List (List Char × List Char)) (k : List Char) : Option (List Char) :=
  (m.reverse.find? (fun p => decide (p.1 = k))).map (fun p => p.2)

/-- Model of the `Cell` struct (src/xlsx_reader.go lines 43-47): reference,
type and value attributes/content of a `c` element. -/
structure Cell where
  R : List Char
  T : List Char
  V : List Char
deriving DecidableEq, Repr

/-- Go slice indexing `xs[i]`: `none` models the runtime panic
"index out of range" thrown when `i` is negative or at least `len(xs)`. -/
def goIndex {α : Type} (xs : List α) (i : Int) : Option α :=
  if h : 0 ≤ i ∧ i.toNat < xs.length then some (xs.get ⟨i.toNat, h.2⟩) else none

/-- Model of `getCellValue` in src/cell_value.go lines 65-73: the parse error
of `strconv.Atoi` is ignored (`idx, _ := strconv.Atoi(cell.V)`, so a
non-numeric value yields index 0), and only the upper bound of the table is
checked before indexing. `none` is the Go panic of `goIndex`. -/
def getCellValue (cell : Cell) (items : List (List Char)) : Option (List Char) :=
  if cell.T = ['s'] then
    if goAtoiOr0 cell.V < (items.length : Int) then goIndex items (goAtoiOr0 cell.V)
    else some cell.V
  else some cell.V

/-- Model of `getCellValue` in src/unnamed/part_003 lines 199-206 (same code
in src/unnamed/part_002 lines 190-197): this revision checks the parse error
(`if idx, err := strconv.Atoi(cell.V); err == nil && idx < len(...)`). -/
def getCellValueChecked (cell : Cell) (items : List (List Char)) : Option (List Char) :=
  if cell.T = ['s'] then
    match goAtoi cell.V with
    | some idx =>
      if idx < (items.length : Int) then goIndex items idx else some cell.V
    | none => some cell.V
  else some cell.V

/-- Model of the inline value resolution of `ReadSheetData`
(src/xlsx_reader.go lines 182-191): `value` starts as the empty string and is
only assigned from the table when the parse succeeds and the index passes the
upper-bound check; a non-shared-string cell passes its content through. -/
def resolveCellValue (t v : List Char) (items : List (List Char)) : Option (List Char) :=
  if t = ['s'] then
    match goAtoi v with
    | some idx =>
      if idx < (items.length : Int) then goIndex items idx else some []
    | none => some []
  else some v

/-- Attribute of an XML start element. -/
structure XmlAttr where
  name : List Char
  value : List Char
deriving DecidableEq, Repr

/-- Shallow embedding of the token stream produced by `encoding/xml`
(`Token` / `RawToken`): start elements with attributes, end elements, and
character data.  The design note of the specification describes exactly this
tagged variant. -/
inductive XmlToken where
  | start (name : List Char) (attrs : List XmlAttr)
  | close (name : List Char)
  | text (s : List Char)
deriving DecidableEq, Repr

/-- Attribute lookup by local name (attribute names are unique in well-formed
XML, so first match equals the last-write-wins of the Go attribute loops). -/
def findAttr (attrs : List XmlAttr) (n : List Char) : Option (List Char) :=
  (attrs.find? (fun a => decide (a.name = n))).map (fun a => a.value)

def rowName : List Char := ['r', 'o', 'w']

def cName : List Char := ['c']

def vName : List Char := ['v']

def rAttr : List Char := ['r']

def tName : List Char := ['t']

def refAttr : List Char := ['r', 'e', 'f']

def mergeCellName : List Char := ['m', 'e', 'r', 'g', 'e', 'C', 'e', 'l', 'l']

def siName : List Char := ['s', 'i']

def sheetsName : List Char := ['s', 'h', 'e', 'e', 't', 's']

def sheetElemName : List Char := ['s', 'h', 'e', 'e', 't']

def nameAttr : List Char := ['n', 'a', 'm', 'e']

def sheetIdAttr : List Char := ['s', 'h', 'e', 'e', 't', 'I', 'd']

/-- Record emitted per cell, the `CellData` struct
(src/xlsx_reader.go lines 25-32). -/
structure CellData where
  SheetName : List Char
  RowNumber : Int
  ColumnNumber : Int
  SheetValue : List Char
  Merged : Bool
  MergedRange : List Char
deriving DecidableEq, Repr

/-- Outcome of one sheet read: a normal return, a returned error (file not
found, truncated decode), or a Go runtime panic, which crashes the whole
process rather than being reported as a sheet failure. -/
inductive SheetResult where
  | ok (records : List CellData)
  | err
  | panicked
deriving DecidableEq, Repr

/-- Row update of the `row` branch of `ReadSheetData`
(src/xlsx_reader.go lines 159-169): the `r` attribute is parsed and the
tracked row is only assigned when the parse succeeds. -/
def rowAttrUpdate (attrs : List XmlAttr) (row : Int) : Int :=
  match findAttr attrs rAttr with
  | some s =>
    match goAtoi s with
    | some n => n
    | none => row
  | none => row

/-- State of an in-progress `DecodeElement(&cell, ...)`: the attributes of
the open `c` element, the nesting depth inside it, whether the scan is inside
a depth-one `v` child, the committed `V` text, and the text collected in the
currently open `v` child. -/
structure CellAcc where
  attrs : List XmlAttr
  depth : Nat
  inV : Bool
  vdone : List Char
  curr : List Char
deriving DecidableEq, Repr

/-- Token loop of `ReadSheetData` (src/xlsx_reader.go lines 146-208).  The
`DecodeElement` call on a `c` start element is defunctionalized into the
`Option CellAcc` state: while it is `some`, tokens feed the cell decoder
(collecting the text of `v` children, the last of which becomes `Cell.V`,
matching `encoding/xml` overwrite semantics for repeated elements); on the
closing `c` tag the cell is resolved and emitted.  A stream that ends inside
a cell element is the decoder error path (`.err`); the tracked current row
is reset to 0 on each row end element (line 205). -/
def readSheetLoop (items : List (List Char)) :
    List XmlToken → Int → Option CellAcc → List CellData → SheetResult
  | [], _, none, acc => .ok acc
  | [], _, some _, _ => .err
  | XmlToken.start nm attrs :: rest, row, none, acc =>
    if nm = rowName then readSheetLoop items rest (rowAttrUpdate attrs row) none acc
    else if nm = cName then
      readSheetLoop items rest row (some ⟨attrs, 0, false, [], []⟩) acc
    else readSheetLoop items rest row none acc
  | XmlToken.close nm :: rest, row, none, acc =>
    if nm = rowName then readSheetLoop items rest 0 none acc
    else readSheetLoop items rest row none acc
  | XmlToken.text _ :: rest, row, none, acc => readSheetLoop items rest row none acc
  | XmlToken.start nm _ :: rest, row, some ca, acc =>
    readSheetLoop items rest row
      (some ⟨ca.attrs, ca.depth + 1,
        ca.inV || (decide (ca.depth = 0) && decide (nm = vName)), ca.vdone,
        if ca.depth = 0 ∧ nm = vName then [] else ca.curr⟩) acc
  | XmlToken.close _ :: rest, row, some ca, acc =>
    match ca.depth with
    | 0 =>
      match resolveCellValue ((findAttr ca.attrs tName).getD []) ca.vdone items with
      | some value =>
        readSheetLoop items rest row none
          (acc ++ [⟨[], row,
            (parseCellReference ((findAttr ca.attrs rAttr).getD [])).1,
            value, false, []⟩])
      | none => .panicked
    | d + 1 =>
      readSheetLoop items rest row
        (some ⟨ca.attrs, d, ca.inV && decide (0 < d),
          if ca.inV ∧ d = 0 then ca.curr else ca.vdone, ca.curr⟩) acc
  | XmlToken.text s :: rest, row, some ca, acc =>
    readSheetLoop items rest row
      (some ⟨ca.attrs, ca.depth, ca.inV, ca.vdone,
        if ca.inV then ca.curr ++ s else ca.curr⟩) acc

/-- Sheet streamer of src/xlsx_reader.go applied to a member's token
stream. -/
def ReadSheetDataTokens (ts : List XmlToken) (items : List (List Char)) : SheetResult :=
  readSheetLoop items ts 0 none []

/-- Row update of the `RawToken` streamer (src/cell_value.go lines 107-112):
`rowInt, _ := strconv.ParseInt(attr.Value, 10, 32); currentRow = int32(rowInt)`
assigns unconditionally, so an unparsable attribute stores 0. -/
def rowAttrUpdateRaw (attrs : List XmlAttr) (row : Int) : Int :=
  match findAttr attrs rAttr with
  | some s => goAtoiOr0 s
  | none => row

/-- Column update of the `c` branch of the `RawToken` streamer
(src/cell_value.go lines 116-123): only assigned when an `r` attribute is
present. -/
def colAttrUpdateRaw (attrs : List XmlAttr) (col : Int) : Int :=
  match findAttr attrs rAttr with
  | some s => (parseCellReference s).1
  | none => col

/-- Token loop of `ReadSheetData` in src/cell_value.go lines 93-146
(`RawToken` based): state is (current row, current column, current value
text, current cell type).  On `v` the next raw token is consumed and stored
when it is character data (stream end there is the returned read error); on
each `c` end element a record is emitted through `getCellValue` (whose panic
propagates); the current value is never reset between cells, and there is no
row-end handling. -/
def readSheetLoopRaw (items : List (List Char)) :
    List XmlToken → Int → Int → List Char → List Char → List CellData → SheetResult
  | [], _, _, _, _, acc => .ok acc
  | XmlToken.start nm attrs :: rest, row, col, curVal, cellT, acc =>
    if nm = rowName then
      readSheetLoopRaw items rest (rowAttrUpdateRaw attrs row) col curVal cellT acc
    else if nm = cName then
      readSheetLoopRaw items rest row (colAttrUpdateRaw attrs col) curVal
        ((findAttr attrs tName).getD []) acc
    else if nm = vName then
      match rest with
      | [] => .err
      | tok :: rest2 =>
        readSheetLoopRaw items rest2 row col
          (match tok with
           | XmlToken.text s => s
           | _ => curVal) cellT acc
    else readSheetLoopRaw items rest row col curVal cellT acc
  | XmlToken.close nm :: rest, row, col, curVal, cellT, acc =>
    if nm = cName then
      match getCellValue ⟨[], cellT, curVal⟩ items with
      | some val =>
        readSheetLoopRaw items rest row col curVal cellT
          (acc ++ [⟨[], row, col, val, false, []⟩])
      | none => .panicked
    else readSheetLoopRaw items rest row col curVal cellT acc
  | XmlToken.text _ :: rest, row, col, curVal, cellT, acc =>
    readSheetLoopRaw items rest row col curVal cellT acc

/-- Sheet streamer of src/cell_value.go applied to a member's token
stream. -/
def ReadSheetDataRawTokens (ts : List XmlToken) (items : List (List Char)) : SheetResult :=
  readSheetLoopRaw items ts 0 0 [] [] []

/-- Assembly of a `MergedCell` from a `ref` attribute, as in
`ReadMergedCells` (src/xlsx_reader.go lines 233-241). -/
def mergedCellOfRef (ref : List Char) : MergedCell :=
  ⟨(parseMergedCellRange ref).2.1, (parseMergedCellRange ref).1,
   (parseMergedCellRange ref).2.2.2, (parseMergedCellRange ref).2.2.1⟩

/-- Model of the `MergeCells` decode of `ReadMergedCells`
(src/xlsx_reader.go lines 226-241): on a well-formed sheet the
`mergeCells>mergeCell` path collects exactly the `mergeCell` start elements,
in document order, reading each `ref` attribute (empty when absent). -/
def readMergedCellsTokens (ts : List XmlToken) : List MergedCell :=
  ts.filterMap (fun t =>
    match t with
    | XmlToken.start nm attrs =>
      if nm = mergeCellName then
        some (mergedCellOfRef ((findAttr attrs refAttr).getD []))
      else none
    | _ => none)

/-- State of an in-progress `DecodeElement` on an `si` element of the
shared-string member, collecting the text of its depth-one `t` children. -/
structure SiAcc where
  depth : Nat
  inT : Bool
  tdone : List Char
  curr : List Char
deriving DecidableEq, Repr

/-- Token loop of `ReadSharedStrings` (src/xlsx_reader.go lines 262-278):
every `si` element contributes the text of its `t` child (empty when absent),
in declaration order; a token error merely breaks the loop, so a stream
ending inside an `si` returns the entries collected so far. -/
def readSharedLoop : List XmlToken → Option SiAcc → List (List Char) → List (List Char)
  | [], _, acc => acc
  | XmlToken.start nm _ :: rest, none, acc =>
    if nm = siName then readSharedLoop rest (some ⟨0, false, [], []⟩) acc
    else readSharedLoop rest none acc
  | XmlToken.close _ :: rest, none, acc => readSharedLoop rest none acc
  | XmlToken.text _ :: rest, none, acc => readSharedLoop rest none acc
  | XmlToken.start nm _ :: rest, some sa, acc =>
    readSharedLoop rest
      (some ⟨sa.depth + 1,
        sa.inT || (decide (sa.depth = 0) && decide (nm = tName)),
        sa.tdone,
        if sa.depth = 0 ∧ nm = tName then [] else sa.curr⟩) acc
  | XmlToken.close _ :: rest, some sa, acc =>
    match sa.depth with
    | 0 => readSharedLoop rest none (acc ++ [sa.tdone])
    | d + 1 =>
      readSharedLoop rest
        (some ⟨d, sa.inT && decide (0 < d),
          if sa.inT ∧ d = 0 then sa.curr else sa.tdone, sa.curr⟩) acc
  | XmlToken.text s :: rest, some sa, acc =>
    readSharedLoop rest
      (some ⟨sa.depth, sa.inT, sa.tdone,
        if sa.inT then sa.curr ++ s else sa.curr⟩) acc

/-- Sheet descriptor from the workbook catalog (name and sheetId
attributes). -/
structure SheetDesc where
  name : List Char
  id : List Char
deriving DecidableEq, Repr

/-- Token loop of `ReadWorkbook` (src/xlsx_reader.go lines 97-121): `sheet`
elements are collected while inside the `sheets` element, in document
order. -/
def readWorkbookLoop : List XmlToken → Bool → List SheetDesc → List SheetDesc
  | [], _, acc => acc
  | XmlToken.start nm attrs :: rest, inSheets, acc =>
    if nm = sheetsName then readWorkbookLoop rest true acc
    else if nm = sheetElemName ∧ inSheets then
      readWorkbookLoop rest inSheets
        (acc ++ [⟨(findAttr attrs nameAttr).getD [], (findAttr attrs sheetIdAttr).getD []⟩])
    else readWorkbookLoop rest inSheets acc
  | XmlToken.close nm :: rest, inSheets, acc =>
    if nm = sheetsName then readWorkbookLoop rest false acc
    else readWorkbookLoop rest inSheets acc
  | XmlToken.text _ :: rest, inSheets, acc => readWorkbookLoop rest inSheets acc

/-- The zip container, as named members with their XML token streams. -/
abbrev Container := List (List Char × List XmlToken)

/-- Member lookup in the archive index (`for _, file := range zipReader.File`
with a name comparison). -/
def findMember (zip : Container) (nm : List Char) : Option (List XmlToken) :=
  (zip.find? (fun p => decide (p.1 = nm))).map (fun p => p.2)

def workbookPath : List Char :=
  ['x', 'l', '/', 'w', 'o', 'r', 'k', 'b', 'o', 'o', 'k', '.', 'x', 'm', 'l']

def sharedStringsPath : List Char :=
  ['x', 'l', '/', 's', 'h', 'a', 'r', 'e', 'd', 'S', 't', 'r', 'i', 'n', 'g', 's',
   '.', 'x', 'm', 'l']

/-- Sheet member name `fmt.Sprintf("xl/worksheets/sheet%s.xml", sheet.ID)`
(src/xlsx_reader.go line 355). -/
def sheetMemberName (id : List Char) : List Char :=
  ['x', 'l', '/', 'w', 'o', 'r', 'k', 's', 'h', 'e', 'e', 't', 's', '/', 's', 'h',
   'e', 'e', 't'] ++ id ++ ['.', 'x', 'm', 'l']

/-- Model of `ReadSheetData` (src/xlsx_reader.go lines 129-214): a missing
member is the returned error "sheet file not found". -/
def ReadSheetData (zip : Container) (fileName : List Char)
    (items : List (List Char)) : SheetResult :=
  match findMember zip fileName with
  | some ts => ReadSheetDataTokens ts items
  | none => .err

/-- Model of `ReadMergedCells` (src/xlsx_reader.go lines 217-246): a missing
member returns `nil, nil` — the empty list, not an error. -/
def ReadMergedCells (zip : Container) (fileName : List Char) : List MergedCell :=
  match findMember zip fileName with
  | some ts => readMergedCellsTokens ts
  | none => []

/-- Model of `ReadSharedStrings` (src/xlsx_reader.go lines 249-283): `none`
is the returned error "shared strings file not found" when the member is
absent. -/
def ReadSharedStrings (zip : Container) : Option (List (List Char)) :=
  (findMember zip sharedStringsPath).map (fun ts => readSharedLoop ts none [])

/-- Model of `ReadWorkbook` (src/xlsx_reader.go lines 81-126): `none` is the
returned error "workbook.xml not found". -/
def ReadWorkbook (zip : Container) : Option (List SheetDesc) :=
  (findMember zip workbookPath).map (fun ts => readWorkbookLoop ts false [])

/-- Outcome of `main` (src/xlsx_reader.go lines 285-417) up to the output
encoders: the run aborts on a missing workbook or shared-string member, a
panic crashes it, and otherwise it finishes with the aggregate record list
and the list of sheet names whose read failed (each reported by one
`fmt.Printf` and skipped with `continue`). -/
inductive RunResult where
  | fatalWorkbook
  | fatalSharedStrings
  | panicked
  | done (data : List CellData) (failures : List (List Char))
deriving DecidableEq, Repr

/-- Per-record merge annotation of `main` (src/xlsx_reader.go lines
387-403): sheet name is filled in, and a hit in the merged map sets the
merged flag and label. -/
def annotate (nm : List Char) (mergedMap : List (List Char × List Char))
    (cd : CellData) : CellData :=
  match goMapLookup mergedMap
      (cellReferenceFromCoordinates cd.ColumnNumber cd.RowNumber) with
  | some rng => ⟨nm, cd.RowNumber, cd.ColumnNumber, cd.SheetValue, true, rng⟩
  | none => ⟨nm, cd.RowNumber, cd.ColumnNumber, cd.SheetValue, false, []⟩

/-- Per-sheet loop of `main` (src/xlsx_reader.go lines 354-404): a sheet
whose read errors is reported and skipped (`continue`); otherwise its merged
map is built and its annotated records are appended to the aggregate. -/
def mainLoop (zip : Container) (items : List (List Char)) :
    List SheetDesc → List CellData → List (List Char) → RunResult
  | [], data, fails => .done data fails
  | d :: rest, data, fails =>
    match ReadSheetData zip (sheetMemberName d.id) items with
    | .panicked => .panicked
    | .err => mainLoop zip items rest data (fails ++ [d.name])
    | .ok records =>
      mainLoop zip items rest
        (data ++ records.map (annotate d.name
          (preAllocateMergedCells (ReadMergedCells zip (sheetMemberName d.id)))))
        fails

/-- Extraction pipeline of `main` (src/xlsx_reader.go lines 329-404):
workbook, then shared strings (both fatal when missing), then the per-sheet
loop. -/
def mainExtract (zip : Container) : RunResult :=
  match ReadWorkbook zip with
  | none => .fatalWorkbook
  | some catalog =>
    match ReadSharedStrings zip with
    | none => .fatalSharedStrings
    | some items => mainLoop zip items catalog [] []

/-- Workbook member of the end-to-end scenario: catalog [{"Sheet1", "1"}]. -/
def c9Workbook : List XmlToken :=
  [.start sheetsName [],
   .start sheetElemName [⟨nameAttr, ['S', 'h', 'e', 'e', 't', '1']⟩, ⟨sheetIdAttr, ['1']⟩],
   .close sheetElemName,
   .close sheetsName]

/-- Shared-string member of the end-to-end scenario: the table ["Hello"]. -/
def c9Shared : List XmlToken :=
  [.start siName [], .start tName [], .text ['H', 'e', 'l', 'l', 'o'], .close tName,
   .close siName]

/-- Sheet member of the end-to-end scenario: row 1 with cell A1 of
shared-string type and index "0", cell B1 with value "42", and the merge
declaration "A1:A1". -/
def c9Sheet : List XmlToken :=
  [.start ['s', 'h', 'e', 'e', 't', 'D', 'a', 't', 'a'] [],
   .start rowName [⟨rAttr, ['1']⟩],
   .start cName [⟨rAttr, ['A', '1']⟩, ⟨tName, ['s']⟩],
   .start vName [], .text ['0'], .close vName,
   .close cName,
   .start cName [⟨rAttr, ['B', '1']⟩],
   .start vName [], .text ['4', '2'], .close vName,
   .close cName,
   .close rowName,
   .close ['s', 'h', 'e', 'e', 't', 'D', 'a', 't', 'a'],
   .start ['m', 'e', 'r', 'g', 'e', 'C', 'e', 'l', 'l', 's'] [],
   .start mergeCellName [⟨refAttr, ['A', '1', ':', 'A', '1']⟩],
   .close mergeCellName,
   .close ['m', 'e', 'r', 'g', 'e', 'C', 'e', 'l', 'l', 's']]

/-- The end-to-end container. -/
def c9Zip : Container :=
  [(workbookPath, c9Workbook),
   (sharedStringsPath, c9Shared),
   (sheetMemberName ['1'], c9Sheet)]

/-- Atomic events of one concurrent sheet task: the unsynchronized
`*data = append(*data, sheetData...)` (src/cell_value.go line 237;
the same shape at src/unnamed/part_003 line 373) reads the shared slice and
later writes back the extended copy. -/
inductive RaceEvent where
  | read (i : Nat)
  | write (i : Nat)
deriving DecidableEq, Repr

/-- Shared slice plus each task's private snapshot of it. -/
structure RaceState where
  shared : List CellData
  snaps : List (Option (List CellData))
deriving DecidableEq, Repr

/-- One step of an interleaving: a task's read snapshots the shared slice; its
write publishes snapshot ++ own records, losing any append that landed in
between (Go gives no atomicity to `append` on a shared slice — this is the
data race of `processSheetsConcurrently`). -/
def raceStep (sheets : List (List CellData)) (s : RaceState) (e : RaceEvent) : RaceState :=
  match e with
  | .read i => ⟨s.shared, s.snaps.set i (some s.shared)⟩
  | .write i =>
    match s.snaps.get? i with
    | some (some snap) => ⟨snap ++ ((sheets.get? i).getD []), s.snaps⟩
    | _ => s

/-- The shared slice after running a schedule of task events from the empty
aggregate. -/
def runSched (sheets : List (List CellData)) (sched : List RaceEvent) : List CellData :=
  (sched.foldl (raceStep sheets) ⟨[], sheets.map (fun _ => none)⟩).shared

/-- A schedule is a legal interleaving of the per-sheet tasks when every task
reads once, writes once, and reads before it writes (each task's own program
order). -/
def legalSched (n : Nat) (sched : List RaceEvent) : Bool :=
  (List.range n).all (fun i =>
    (sched.count (RaceEvent.read i) == 1) && (sched.count (RaceEvent.write i) == 1) &&
    (sched.takeWhile (fun e => e != RaceEvent.write i)).contains (RaceEvent.read i))

/-- A cell of a sheet stream in canonical serialized form: reference and type
attributes and one `v` child holding the value text. -/
structure CellSpec where
  ref : List Char
  typ : List Char
  val : List Char
deriving DecidableEq, Repr

/-- Canonical token serialization of one cell element. -/
def cellTokens (c : CellSpec) : List XmlToken :=
  [.start cName [⟨rAttr, c.ref⟩, ⟨tName, c.typ⟩],
   .start vName [], .text c.val, .close vName,
   .close cName]

/-- Canonical token serialization of one row element declaring row number
`num` in its `r` attribute. -/
def rowTokens (num : Int) (cells : List CellSpec) : List XmlToken :=
  XmlToken.start rowName [⟨rAttr, intToDigits num⟩]
    :: (cells.flatMap cellTokens ++ [XmlToken.close rowName])

/-- Canonical token serialization of a sheet stream: its row elements in
document order, each declaring its own row number. -/
def sheetTokens (rows : List (Int × List CellSpec)) : List XmlToken :=
  rows.flatMap (fun p => rowTokens p.1 p.2)

/-- The record `ReadSheetData` emits for a cell under tracked row `row`. -/
def cellRecord (row : Int) (items : List (List Char)) (c : CellSpec) : CellData :=
  ⟨[], row, (parseCellReference c.ref).1,
   (resolveCellValue c.typ c.val items).getD [], false, []⟩

/-- Whether a sheet read returned normally. -/
def SheetResult.isOk : SheetResult → Bool
  | .ok _ => true
  | .err => false
  | .panicked => false

/-- The records one sheet contributes to the aggregate in `main`
(src/xlsx_reader.go lines 357-403): its annotated records when its read
succeeds, nothing when it fails. -/
def sheetContribution (zip : Container) (items : List (List Char))
    (d : SheetDesc) : List CellData :=
  match ReadSheetData zip (sheetMemberName d.id) items with
  | .ok records =>
    records.map (annotate d.name
      (preAllocateMergedCells (ReadMergedCells zip (sheetMemberName d.id))))
  | _ => []

/-- Container of the C4 witness: sheet members 1 and 3 exist (sheet 1 empty,
sheet 3 with one cell in row 2), member 2 is missing. -/
def c4Zip : Container :=
  [(sheetMemberName ['1'], []),
   (sheetMemberName ['3'],
    [.start rowName [⟨rAttr, ['2']⟩],
     .start cName [⟨rAttr, ['A', '2']⟩],
     .close cName,
     .close rowName])]

theorem colLettersAux_nil (f : Nat) : colLettersAux f 0 = [] := by
  cases f <;> rfl

theorem colLettersAux_extra (n : Nat) :
    ∀ f1 f2, n ≤ f1 → n ≤ f2 → colLettersAux f1 n = colLettersAux f2 n := by
  induction n using Nat.strong_induction_on with
  | _ n ih =>
    intro f1 f2 h1 h2
    cases n with
    | zero => rw [colLettersAux_nil, colLettersAux_nil]
    | succ m =>
      cases f1 with
      | zero => omega
      | succ g1 =>
        cases f2 with
        | zero => omega
        | succ g2 =>
          show colLettersAux g1 (m / 26) ++ _ = colLettersAux g2 (m / 26) ++ _
          rw [ih (m / 26) (by omega) g1 g2 (by omega) (by omega)]

theorem colLetters_zero : colLetters 0 = [] := rfl

theorem colLetters_succ (n : Nat) :
    colLetters (n + 1) = colLetters (n / 26) ++ [Char.ofNat ('A'.toNat + n % 26)] := by
  show colLettersAux n (n / 26) ++ [Char.ofNat ('A'.toNat + n % 26)]
      = colLettersAux (n / 26) (n / 26) ++ [Char.ofNat ('A'.toNat + n % 26)]
  rw [colLettersAux_extra (n / 26) n (n / 26) (by omega) (by omega)]

theorem natToDigitsAux_extra (n : Nat) :
    ∀ f1 f2, n < f1 → n < f2 → natToDigitsAux f1 n = natToDigitsAux f2 n := by
  induction n using Nat.strong_induction_on with
  | _ n ih =>
    intro f1 f2 h1 h2
    cases f1 with
    | zero => omega
    | succ g1 =>
      cases f2 with
      | zero => omega
      | succ g2 =>
        simp only [natToDigitsAux]
        by_cases h : n < 10
        · rw [if_pos h, if_pos h]
        · rw [if_neg h, if_neg h, ih (n / 10) (by omega) g1 g2 (by omega) (by omega)]

theorem natToDigits_lt {n : Nat} (h : n < 10) :
    natToDigits n = [Char.ofNat ('0'.toNat + n)] := by
  rw [show natToDigits n = if n < 10 then [Char.ofNat ('0'.toNat + n)]
      else natToDigitsAux n (n / 10) ++ [Char.ofNat ('0'.toNat + n % 10)] from rfl,
    if_pos h]

theorem natToDigits_ge {n : Nat} (h : ¬ n < 10) :
    natToDigits n = natToDigits (n / 10) ++ [Char.ofNat ('0'.toNat + n % 10)] := by
  rw [show natToDigits n = if n < 10 then [Char.ofNat ('0'.toNat + n)]
      else natToDigitsAux n (n / 10) ++ [Char.ofNat ('0'.toNat + n % 10)] from rfl,
    if_neg h, natToDigitsAux_extra (n / 10) n (n / 10 + 1) (by omega) (by omega)]
  rfl

theorem toNat_ofNat_upper (m : Nat) (hm : m < 26) :
    (Char.ofNat ('A'.toNat + m)).toNat = 65 + m := by
  interval_cases m <;> rfl

theorem toNat_ofNat_digit (d : Nat) (hd : d < 10) :
    (Char.ofNat ('0'.toNat + d)).toNat = 48 + d := by
  interval_cases d <;> rfl

theorem parseDigits_append (xs ys : List Char) (acc : Nat) :
    parseDigits (xs ++ ys) acc =
      (parseDigits xs acc).bind (fun a => parseDigits ys a) := by
  induction xs generalizing acc with
  | nil => simp [parseDigits]
  | cons c cs ih =>
    by_cases h : '0'.toNat ≤ c.toNat ∧ c.toNat ≤ '9'.toNat
    · simp only [List.cons_append, parseDigits, if_pos h]
      exact ih _
    · simp only [List.cons_append, parseDigits, if_neg h, Option.none_bind]

theorem parseDigits_single (d : Nat) (hd : d < 10) (acc : Nat) :
    parseDigits [Char.ofNat ('0'.toNat + d)] acc = some (acc * 10 + d) := by
  have h1 : (Char.ofNat ('0'.toNat + d)).toNat = 48 + d := toNat_ofNat_digit d hd
  have h2 : '0'.toNat ≤ (Char.ofNat ('0'.toNat + d)).toNat ∧
      (Char.ofNat ('0'.toNat + d)).toNat ≤ '9'.toNat := by
    rw [h1]
    constructor
    · show 48 ≤ 48 + d; omega
    · show 48 + d ≤ 57; omega
  rw [parseDigits, if_pos h2, h1]
  have : 48 + d - '0'.toNat = d := by show 48 + d - 48 = d; omega
  rw [this, parseDigits]

theorem parseDigits_natToDigits (n : Nat) :
    ∀ acc : Nat, parseDigits (natToDigits n) acc =
      some (acc * 10 ^ (natToDigits n).length + n) := by
  induction n using Nat.strong_induction_on with
  | _ n ih =>
    intro acc
    by_cases h : n < 10
    · rw [natToDigits_lt h, parseDigits_single n h]
      simp
    · rw [natToDigits_ge h, parseDigits_append,
        ih (n / 10) (Nat.div_lt_self (by omega) (by omega)) acc, Option.some_bind,
        parseDigits_single (n % 10) (Nat.mod_lt n (by omega))]
      congr 1
      rw [show (natToDigits (n / 10) ++ [Char.ofNat ('0'.toNat + n % 10)]).length
        = (natToDigits (n / 10)).length + 1 from by simp, pow_succ]
      have hdm : 10 * (n / 10) + n % 10 = n := Nat.div_add_mod n 10
      have hr : (acc * 10 ^ (natToDigits (n / 10)).length + n / 10) * 10 + n % 10
          = acc * (10 ^ (natToDigits (n / 10)).length * 10) + (10 * (n / 10) + n % 10) := by
        ring
      rw [hr, hdm]

theorem natToDigits_head (n : Nat) :
    ∃ c cs, natToDigits n = c :: cs ∧ 48 ≤ c.toNat ∧ c.toNat ≤ 57 := by
  induction n using Nat.strong_induction_on with
  | _ n ih =>
    by_cases h : n < 10
    · refine ⟨Char.ofNat ('0'.toNat + n), [], ?_, ?_, ?_⟩
      · rw [natToDigits_lt h]
      · rw [toNat_ofNat_digit n h]; omega
      · rw [toNat_ofNat_digit n h]; omega
    · obtain ⟨c, cs, heq, h1, h2⟩ := ih (n / 10) (Nat.div_lt_self (by omega) (by omega))
      refine ⟨c, cs ++ [Char.ofNat ('0'.toNat + n % 10)], ?_, h1, h2⟩
      rw [natToDigits_ge h, heq]
      simp

theorem goAtoi_natToDigits (n : Nat) : goAtoi (natToDigits n) = some (n : Int) := by
  obtain ⟨c, cs, heq, h1, h2⟩ := natToDigits_head n
  have hplus : ¬ c = '+' := by
    intro hc; rw [hc] at h1; exact absurd h1 (by decide)
  have hminus : ¬ c = '-' := by
    intro hc; rw [hc] at h1; exact absurd h1 (by decide)
  rw [heq, goAtoi, if_neg hplus, if_neg hminus, ← heq, parseDigits_natToDigits n 0]
  simp

theorem goAtoi_intToDigits (i : Int) : goAtoi (intToDigits i) = some i := by
  by_cases h : i < 0
  · rw [intToDigits, if_pos h]
    obtain ⟨c, cs, heq, h1, h2⟩ := natToDigits_head (-i).toNat
    have hne : ¬ natToDigits (-i).toNat = [] := by rw [heq]; simp
    rw [goAtoi, if_neg (by decide), if_pos rfl, if_neg hne,
      parseDigits_natToDigits ((-i).toNat) 0]
    simp
    omega
  · rw [intToDigits, if_neg h, goAtoi_natToDigits]
    congr 1
    omega

theorem goAtoiOr0_natToDigits (n : Nat) : goAtoiOr0 (natToDigits n) = (n : Int) := by
  rw [goAtoiOr0, goAtoi_natToDigits, Option.getD_some]

theorem parseCellRefLoop_colLetters (n : Nat) :
    ∀ (acc : Int) (rest : List Char),
      parseCellRefLoop (colLetters n ++ rest) acc =
        parseCellRefLoop rest (acc * 26 ^ (colLetters n).length + n) := by
  induction n using Nat.strong_induction_on with
  | _ n ih =>
    intro acc rest
    match n with
    | 0 => simp [colLetters_zero]
    | Nat.succ m =>
      rw [colLetters_succ, List.append_assoc, List.cons_append, List.nil_append,
        ih (m / 26) (Nat.lt_succ_of_le (Nat.div_le_self m 26))]
      have htn : (Char.ofNat ('A'.toNat + m % 26)).toNat = 65 + m % 26 :=
        toNat_ofNat_upper (m % 26) (Nat.mod_lt m (by omega))
      have hcond : 'A'.toNat ≤ (Char.ofNat ('A'.toNat + m % 26)).toNat ∧
          (Char.ofNat ('A'.toNat + m % 26)).toNat ≤ 'Z'.toNat := by
        rw [htn]
        constructor
        · show 65 ≤ 65 + m % 26; omega
        · show 65 + m % 26 ≤ 90
          have := Nat.mod_lt m (show 0 < 26 by omega)
          omega
      rw [parseCellRefLoop, if_pos hcond, htn]
      have hval : (65 + m % 26 - 'A'.toNat + 1 : Nat) = m % 26 + 1 := by
        show 65 + m % 26 - 65 + 1 = m % 26 + 1; omega
      rw [hval]
      congr 1
      rw [show (colLetters (m / 26) ++ [Char.ofNat ('A'.toNat + m % 26)]).length
        = (colLetters (m / 26)).length + 1 from by simp, pow_succ]
      have hdm : (26 : Int) * ((m / 26 : Nat) : Int) + ((m % 26 : Nat) : Int)
          = (m : Int) := by omega
      push_cast at hdm ⊢
      linear_combination hdm

theorem parseCellRefLoop_digits (n : Nat) (acc : Int) :
    parseCellRefLoop (natToDigits n) acc = (acc, (n : Int)) := by
  obtain ⟨c, cs, heq, h1, h2⟩ := natToDigits_head n
  have hcond : ¬ ('A'.toNat ≤ c.toNat ∧ c.toNat ≤ 'Z'.toNat) := by
    intro hc
    have : (65 : Nat) ≤ c.toNat := hc.1
    omega
  rw [heq, parseCellRefLoop, if_neg hcond, ← heq, goAtoiOr0_natToDigits]

/-- Round-trip of the codec on any nonnegative coordinate pair (the Go
functions invert each other as soon as the column and row are nonnegative;
no upper bound is needed because no `int32` overflow occurs below 2^31). -/
theorem parse_encode_roundtrip (col row : Int) (hc : 0 ≤ col) (hr : 0 ≤ row) :
    parseCellReference (cellReferenceFromCoordinates col row) = (col, row) := by
  rw [parseCellReference, cellReferenceFromCoordinates, intToDigits,
    if_neg (by omega), parseCellRefLoop_colLetters, parseCellRefLoop_digits]
  rw [Prod.mk.injEq]
  constructor
  · simp only [zero_mul, zero_add]; omega
  · omega

/-- Injectivity of the encoder on nonnegative coordinates, a consequence of
the round-trip. -/
theorem encode_injective (c1 r1 c2 r2 : Int) (hc1 : 0 ≤ c1) (hr1 : 0 ≤ r1)
    (hc2 : 0 ≤ c2) (hr2 : 0 ≤ r2)
    (h : cellReferenceFromCoordinates c1 r1 = cellReferenceFromCoordinates c2 r2) :
    c1 = c2 ∧ r1 = r2 := by
  have h1 := parse_encode_roundtrip c1 r1 hc1 hr1
  have h2 := parse_encode_roundtrip c2 r2 hc2 hr2
  rw [h, h2] at h1
  exact ⟨(Prod.mk.injEq _ _ _ _ ▸ h1).1.symm, (Prod.mk.injEq _ _ _ _ ▸ h1).2.symm⟩

/-- C1: Round-trip of the Reference Codec: for every column in [1, 16384] and
row in [1, 2^20], decoding the encoded reference returns the original pair:
parseCellReference (cellReferenceFromCoordinates c r) = (c, r). -/
theorem claim_C1_roundtrip (c r : Int) (hc1 : 1 ≤ c) (hc2 : c ≤ 16384)
    (hr1 : 1 ≤ r) (hr2 : r ≤ 2 ^ 20) :
    parseCellReference (cellReferenceFromCoordinates c r) = (c, r) :=
  parse_encode_roundtrip c r (by omega) (by omega)

theorem claim_C1_roundtrip_witness :
    (1 ≤ (703 : Int) ∧ (703 : Int) ≤ 16384 ∧ 1 ≤ (1048576 : Int) ∧
      (1048576 : Int) ≤ 2 ^ 20) ∧
    parseCellReference (cellReferenceFromCoordinates 703 1048576) = (703, 1048576) :=
  ⟨by decide,
   claim_C1_roundtrip 703 1048576 (by decide) (by decide) (by decide) (by decide)⟩

theorem mem_intRange (lo hi x : Int) : x ∈ intRange lo hi ↔ lo ≤ x ∧ x ≤ hi := by
  simp only [intRange, List.mem_map, List.mem_range]
  constructor
  · rintro ⟨i, hi', rfl⟩
    omega
  · rintro ⟨h1, h2⟩
    exact ⟨(x - lo).toNat, by omega, by omega⟩

theorem mem_expandMergedCell (mc : MergedCell) (p : List Char × List Char) :
    p ∈ expandMergedCell mc ↔
      ∃ col row, mc.StartColumn ≤ col ∧ col ≤ mc.EndColumn ∧
        mc.StartRow ≤ row ∧ row ≤ mc.EndRow ∧
        p = (cellReferenceFromCoordinates col row, mergedRangeLabel mc) := by
  simp only [expandMergedCell, List.mem_flatMap, List.mem_map, mem_intRange]
  constructor
  · rintro ⟨col, ⟨hc1, hc2⟩, row, ⟨hr1, hr2⟩, rfl⟩
    exact ⟨col, row, hc1, hc2, hr1, hr2, rfl⟩
  · rintro ⟨col, row, hc1, hc2, hr1, hr2, rfl⟩
    exact ⟨col, ⟨hc1, hc2⟩, row, ⟨hr1, hr2⟩, rfl⟩

theorem mem_preAllocate_single (mc : MergedCell) (p : List Char × List Char) :
    p ∈ preAllocateMergedCells [mc] ↔ p ∈ expandMergedCell mc := by
  simp [preAllocateMergedCells]

theorem goMapLookup_const_value {m : List (List Char × List Char)} {lab : List Char}
    (k : List Char) (hall : ∀ p ∈ m, p.2 = lab) :
    goMapLookup m k = if ∃ p ∈ m, p.1 = k then some lab else none := by
  by_cases hex : ∃ p ∈ m, p.1 = k
  · rw [if_pos hex]
    rcases h : m.reverse.find? (fun p => decide (p.1 = k)) with _ | q
    · exfalso
      rw [List.find?_eq_none] at h
      obtain ⟨p, hp, hpk⟩ := hex
      have := h p (List.mem_reverse.mpr hp)
      simp only [decide_eq_true_eq] at this
      exact this hpk
    · have hq2 : q.2 = lab := hall q (List.mem_reverse.mp (List.mem_of_find?_eq_some h))
      rw [goMapLookup, h]
      simp [hq2]
  · rw [if_neg hex]
    have h : m.reverse.find? (fun p => decide (p.1 = k)) = none := by
      rw [List.find?_eq_none]
      intro p hp
      simp only [decide_eq_true_eq]
      intro hk
      exact hex ⟨p, List.mem_reverse.mp hp, hk⟩
    rw [goMapLookup, h]
    rfl

/-- C3: Merged-range expansion. For a declaration with positive coordinates
whose start is at most its end on both axes, the expanded coordinate-to-label
map has an entry exactly for the coordinates inside the inclusive rectangle,
each mapped to the label "start:end"; any coordinate outside has no entry. -/
theorem claim_C3_merge_expansion (mc : MergedCell)
    (hsc : 1 ≤ mc.StartColumn) (hsr : 1 ≤ mc.StartRow)
    (hce : mc.StartColumn ≤ mc.EndColumn) (hre : mc.StartRow ≤ mc.EndRow)
    (c r : Int) (hc1 : 1 ≤ c) (hr1 : 1 ≤ r) :
    goMapLookup (preAllocateMergedCells [mc]) (cellReferenceFromCoordinates c r)
      = if mc.StartColumn ≤ c ∧ c ≤ mc.EndColumn ∧ mc.StartRow ≤ r ∧ r ≤ mc.EndRow
        then some (mergedRangeLabel mc) else none := by
  have hall : ∀ p ∈ preAllocateMergedCells [mc], p.2 = mergedRangeLabel mc := by
    intro p hp
    rw [mem_preAllocate_single, mem_expandMergedCell] at hp
    obtain ⟨col, row, _, _, _, _, rfl⟩ := hp
    rfl
  rw [goMapLookup_const_value _ hall]
  by_cases hin : mc.StartColumn ≤ c ∧ c ≤ mc.EndColumn ∧ mc.StartRow ≤ r ∧ r ≤ mc.EndRow
  · rw [if_pos hin, if_pos]
    refine ⟨(cellReferenceFromCoordinates c r, mergedRangeLabel mc), ?_, rfl⟩
    rw [mem_preAllocate_single, mem_expandMergedCell]
    exact ⟨c, r, hin.1, hin.2.1, hin.2.2.1, hin.2.2.2, rfl⟩
  · rw [if_neg hin, if_neg]
    rintro ⟨p, hp, hpk⟩
    rw [mem_preAllocate_single, mem_expandMergedCell] at hp
    obtain ⟨col, row, h1, h2, h3, h4, rfl⟩ := hp
    obtain ⟨rfl, rfl⟩ := encode_injective col row c r (by omega) (by omega)
      (by omega) (by omega) hpk
    exact hin ⟨h1, h2, h3, h4⟩

theorem claim_C3_merge_expansion_witness :
    goMapLookup (preAllocateMergedCells [⟨2, 2, 3, 3⟩])
        (cellReferenceFromCoordinates 2 2) = some (mergedRangeLabel ⟨2, 2, 3, 3⟩) ∧
    goMapLookup (preAllocateMergedCells [⟨2, 2, 3, 3⟩])
        (cellReferenceFromCoordinates 4 2) = none ∧
    mergedRangeLabel ⟨2, 2, 3, 3⟩ = ['B', '2', ':', 'C', '3'] := by
  refine ⟨?_, ?_, by decide⟩
  · rw [claim_C3_merge_expansion ⟨2, 2, 3, 3⟩ (by decide) (by decide) (by decide)
      (by decide) 2 2 (by decide) (by decide)]
    decide
  · rw [claim_C3_merge_expansion ⟨2, 2, 3, 3⟩ (by decide) (by decide) (by decide)
      (by decide) 4 2 (by decide) (by decide)]
    decide

/-- C2 is a code bug: shared-string resolution panics on a negative index.
Both `getCellValue` (src/cell_value.go line 68) and the inline resolution of
`ReadSheetData` (src/xlsx_reader.go line 186) guard only `idx < len(items)`,
so the parsed index -1 reaches `items[-1]` and Go panics (modelled as
`none`).  Moreover `getCellValue` returns the raw index text, not the empty
string, for an in-bounds-failing nonnegative index ("5" against a one-entry
table), contradicting the claim's empty-value clause as well. -/
theorem claim_C2_shared_string_panic :
    getCellValue ⟨['A', '1'], ['s'], ['-', '1']⟩ [['H', 'e', 'l', 'l', 'o']] = none ∧
    resolveCellValue ['s'] ['-', '1'] [['H', 'e', 'l', 'l', 'o']] = none ∧
    getCellValue ⟨['A', '1'], ['s'], ['5']⟩ [['H', 'e', 'l', 'l', 'o']]
      = some ['5'] := by
  decide

/-- C10 counterexample: the two revisions of `getCellValue` disagree on a
shared-string cell whose value text is not a valid integer when the table is
nonempty: the error-ignoring revision indexes with 0 and returns the first
table entry, the error-checking revision falls through to the raw text. -/
theorem claim_C10_counterexample :
    getCellValue ⟨['A', '1'], ['s'], ['a', 'b', 'c']⟩ [['H', 'e', 'l', 'l', 'o']]
      ≠ getCellValueChecked ⟨['A', '1'], ['s'], ['a', 'b', 'c']⟩
          [['H', 'e', 'l', 'l', 'o']] := by
  decide

/-- C10 amended: the two revisions of `getCellValue` agree whenever the cell
value parses as an integer, or the cell is not shared-string typed, or the
table is empty; they differ exactly on a shared-string cell with unparsable
value text against a nonempty table (see the counterexample). -/
theorem claim_C10_equiv_amended (cell : Cell) (items : List (List Char))
    (h : goAtoi cell.V ≠ none ∨ cell.T ≠ ['s'] ∨ items = []) :
    getCellValue cell items = getCellValueChecked cell items := by
  by_cases ht : cell.T = ['s']
  · rcases hA : goAtoi cell.V with _ | n
    · rcases h with h | h | h
      · exact absurd hA h
      · exact absurd ht h
      · subst h
        rw [getCellValue, if_pos ht, getCellValueChecked, if_pos ht, hA,
          show goAtoiOr0 cell.V = 0 from by rw [goAtoiOr0, hA]; rfl,
          if_neg (show ¬ ((0 : Int) < (([] : List (List Char)).length : Int))
            from by simp)]
    · rw [getCellValue, if_pos ht, getCellValueChecked, if_pos ht, hA,
        show goAtoiOr0 cell.V = n from by rw [goAtoiOr0, hA]; rfl]
  · rw [getCellValue, if_neg ht, getCellValueChecked, if_neg ht]

theorem claim_C10_equiv_amended_witness :
    (goAtoi ['0'] ≠ none) ∧
    getCellValue ⟨['A', '1'], ['s'], ['0']⟩ [['H', 'e', 'l', 'l', 'o']]
      = getCellValueChecked ⟨['A', '1'], ['s'], ['0']⟩ [['H', 'e', 'l', 'l', 'o']] :=
  ⟨by decide, claim_C10_equiv_amended _ _ (Or.inl (by decide))⟩

/-- C9: End-to-end extraction of the concrete scenario: the aggregate is
exactly {Sheet1, 1, 1, "Hello", merged, "A1:A1"} then
{Sheet1, 1, 2, "42", unmerged, ""}, in that order, with no failures. -/
theorem claim_C9_end_to_end :
    mainExtract c9Zip = .done
      [⟨['S', 'h', 'e', 'e', 't', '1'], 1, 1, ['H', 'e', 'l', 'l', 'o'], true,
        ['A', '1', ':', 'A', '1']⟩,
       ⟨['S', 'h', 'e', 'e', 't', '1'], 1, 2, ['4', '2'], false, []⟩] [] := by
  decide

/-- C6 is a code bug: every revision of `ReadSharedStrings` returns the error
"shared strings file not found" when the member is absent
(src/xlsx_reader.go line 282), and `main` treats that error as fatal
(src/xlsx_reader.go lines 345-349), aborting before any sheet is read — the
specification requires an empty table and a run over all cataloged sheets.
The container here has a workbook and a readable sheet member but no
shared-string member; the run ends at the shared-string stage instead of
producing the sheet's records. -/
theorem claim_C6_missing_shared_strings_fatal :
    ReadSharedStrings [(workbookPath, c9Workbook), (sheetMemberName ['1'], c9Sheet)]
      = none ∧
    mainExtract [(workbookPath, c9Workbook), (sheetMemberName ['1'], c9Sheet)]
      = .fatalSharedStrings := by
  decide

/-- C5 is a code bug: the concurrent tasks append to the shared aggregate
slice with no mutual exclusion, so the legal interleaving read 0, read 1,
write 0, write 1 loses sheet 0's records: the aggregate holds one record
while the per-sheet counts sum to two.  The claim's "for every possible
interleaving" therefore fails on the code; the specification itself demands
a lock or local buffers. -/
theorem claim_C5_lost_update :
    legalSched 2 [RaceEvent.read 0, RaceEvent.read 1,
      RaceEvent.write 0, RaceEvent.write 1] = true ∧
    runSched [[⟨['A'], 1, 1, ['x'], false, []⟩], [⟨['B'], 1, 1, ['y'], false, []⟩]]
      [RaceEvent.read 0, RaceEvent.read 1, RaceEvent.write 0, RaceEvent.write 1]
      = [⟨['B'], 1, 1, ['y'], false, []⟩] ∧
    (runSched [[⟨['A'], 1, 1, ['x'], false, []⟩], [⟨['B'], 1, 1, ['y'], false, []⟩]]
      [RaceEvent.read 0, RaceEvent.read 1, RaceEvent.write 0,
        RaceEvent.write 1]).length
      ≠ ((([[⟨['A'], 1, 1, ['x'], false, []⟩],
           [⟨['B'], 1, 1, ['y'], false, []⟩]] : List (List CellData)).map
            List.length).sum) := by
  decide

theorem readSheetLoop_cell (items : List (List Char)) (c : CellSpec)
    (rest : List XmlToken) (row : Int) (acc : List CellData)
    (h : (resolveCellValue c.typ c.val items).isSome = true) :
    readSheetLoop items (cellTokens c ++ rest) row none acc
      = readSheetLoop items rest row none (acc ++ [cellRecord row items c]) := by
  obtain ⟨val, hv⟩ := Option.isSome_iff_exists.mp h
  have hstep : readSheetLoop items (cellTokens c ++ rest) row none acc
      = (match resolveCellValue c.typ c.val items with
         | some value => readSheetLoop items rest row none
             (acc ++ [⟨[], row, (parseCellReference c.ref).1, value, false, []⟩])
         | none => SheetResult.panicked) := rfl
  have hrec : cellRecord row items c
      = ⟨[], row, (parseCellReference c.ref).1, val, false, []⟩ := by
    unfold cellRecord
    rw [hv]
    rfl
  rw [hstep, hv, hrec]

theorem readSheetLoop_cells (items : List (List Char)) (cells : List CellSpec)
    (tail : List XmlToken) (row : Int) :
    ∀ acc : List CellData,
      (∀ c ∈ cells, (resolveCellValue c.typ c.val items).isSome = true) →
      readSheetLoop items (cells.flatMap cellTokens ++ tail) row none acc
        = readSheetLoop items tail row none (acc ++ cells.map (cellRecord row items)) := by
  induction cells with
  | nil => intro acc _; simp
  | cons c cs ih =>
    intro acc h
    rw [List.flatMap_cons, List.append_assoc,
      readSheetLoop_cell items c _ row acc (h c (List.mem_cons_self c cs)),
      ih (acc ++ [cellRecord row items c])
        (fun d hd => h d (List.mem_cons_of_mem c hd))]
    simp

theorem readSheetLoop_row (items : List (List Char)) (num : Int)
    (cells : List CellSpec) (rest : List XmlToken) (row : Int) (acc : List CellData)
    (h : ∀ c ∈ cells, (resolveCellValue c.typ c.val items).isSome = true) :
    readSheetLoop items (rowTokens num cells ++ rest) row none acc
      = readSheetLoop items rest 0 none (acc ++ cells.map (cellRecord num items)) := by
  have h2 : rowAttrUpdate [⟨rAttr, intToDigits num⟩] row = num := by
    show (match goAtoi (intToDigits num) with
          | some n => n
          | none => row) = num
    rw [goAtoi_intToDigits]
  have h1 : readSheetLoop items (rowTokens num cells ++ rest) row none acc
      = readSheetLoop items ((cells.flatMap cellTokens ++ [XmlToken.close rowName]) ++ rest)
          (rowAttrUpdate [⟨rAttr, intToDigits num⟩] row) none acc := rfl
  rw [h1, h2, List.append_assoc,
    readSheetLoop_cells items cells _ num acc h]
  rfl

theorem readSheetLoop_rows (items : List (List Char)) :
    ∀ (rows : List (Int × List CellSpec)) (row : Int) (acc : List CellData),
      (∀ p ∈ rows, ∀ c ∈ p.2, (resolveCellValue c.typ c.val items).isSome = true) →
      readSheetLoop items (sheetTokens rows) row none acc
        = .ok (acc ++ rows.flatMap (fun p => p.2.map (cellRecord p.1 items))) := by
  intro rows
  induction rows with
  | nil => intro row acc _; simp [sheetTokens]; rfl
  | cons p ps ih =>
    intro row acc h
    rw [show sheetTokens (p :: ps) = rowTokens p.1 p.2 ++ sheetTokens ps from
        List.flatMap_cons ..,
      readSheetLoop_row items p.1 p.2 _ row acc
        (h p (List.mem_cons_self p ps)),
      ih 0 (acc ++ p.2.map (cellRecord p.1 items))
        (fun q hq => h q (List.mem_cons_of_mem p hq))]
    simp

/-- C7: Row tracking follows document order.  For every canonical sheet
stream — any list of row elements carrying any declared row numbers in any
order (out-of-numeric-order included), each holding any cells — every emitted
record carries the declared number of its enclosing row element, that is, the
number of the most recently seen row-start in the stream, not a numerically
sorted one.  The hypothesis only excludes the shared-string panic of C2 so
that the streamer returns normally. -/
theorem claim_C7_row_tracking (items : List (List Char))
    (rows : List (Int × List CellSpec))
    (h : ∀ p ∈ rows, ∀ c ∈ p.2, (resolveCellValue c.typ c.val items).isSome = true) :
    ReadSheetDataTokens (sheetTokens rows) items
      = .ok (rows.flatMap (fun p => p.2.map (cellRecord p.1 items))) := by
  rw [ReadSheetDataTokens, readSheetLoop_rows items rows 0 [] h]
  rfl

theorem claim_C7_row_tracking_witness :
    (∀ p ∈ ([(5, [⟨['A', '5'], [], ['7']⟩]), (2, [⟨['A', '2'], [], ['9']⟩])]
        : List (Int × List CellSpec)),
      ∀ c ∈ p.2, (resolveCellValue c.typ c.val []).isSome = true) ∧
    ReadSheetDataTokens
      (sheetTokens [(5, [⟨['A', '5'], [], ['7']⟩]), (2, [⟨['A', '2'], [], ['9']⟩])]) []
      = .ok [⟨[], 5, 1, ['7'], false, []⟩, ⟨[], 2, 1, ['9'], false, []⟩] := by
  refine ⟨by decide, ?_⟩
  rw [claim_C7_row_tracking [] [(5, [⟨['A', '5'], [], ['7']⟩]),
    (2, [⟨['A', '2'], [], ['9']⟩])] (by decide)]
  decide

/-- C8 counterexample: in the `RawToken` streamer of src/cell_value.go the
parse error of the row attribute is ignored and the zero result assigned
(lines 109-110), so the row declared "x" after a row declared "5" tracks 0,
and its cell is emitted with row number 0 — not with the most recently
successfully parsed row number 5 as the claim states. -/
theorem claim_C8_counterexample :
    ReadSheetDataRawTokens
      [.start rowName [⟨rAttr, ['5']⟩],
       .start cName [⟨rAttr, ['A', '5']⟩],
       .start vName [], .text ['7'], .close vName,
       .close cName,
       .close rowName,
       .start rowName [⟨rAttr, ['x']⟩],
       .start cName [⟨rAttr, ['A', '6']⟩],
       .start vName [], .text ['9'], .close vName,
       .close cName,
       .close rowName] []
      = .ok [⟨[], 5, 1, ['7'], false, []⟩, ⟨[], 0, 1, ['9'], false, []⟩] ∧
    (0 : Int) ≠ 5 := by
  decide

/-- C8 amended: in the src/xlsx_reader.go streamer a row-start whose `r`
attribute is absent or unparsable does leave the tracked current row at its
previous value — but the tracker is reset to 0 at every row end, so the
previous value after any completed row is 0, and cells of such a row are
emitted with that previous tracked value rather than with the most recently
successfully parsed row number; the src/cell_value.go revision instead
overwrites the tracked row with 0 on an unparsable attribute (see the
counterexample). -/
theorem claim_C8_row_fallback_amended (items : List (List Char))
    (attrs : List XmlAttr) (rest rest' : List XmlToken) (row : Int)
    (acc acc' : List CellData)
    (h : findAttr attrs rAttr = none ∨
      ∃ s, findAttr attrs rAttr = some s ∧ goAtoi s = none) :
    readSheetLoop items (XmlToken.start rowName attrs :: rest) row none acc
      = readSheetLoop items rest row none acc ∧
    readSheetLoop items (XmlToken.close rowName :: rest') row none acc'
      = readSheetLoop items rest' 0 none acc' := by
  constructor
  · have h0 : rowAttrUpdate attrs row = row := by
      rcases h with h | ⟨s, h1, h2⟩
      · unfold rowAttrUpdate
        rw [h]
      · unfold rowAttrUpdate
        rw [h1]
        have hred : (match goAtoi s with
                     | some n => n
                     | none => row) = row := by rw [h2]
        exact hred
    show readSheetLoop items rest (rowAttrUpdate attrs row) none acc
      = readSheetLoop items rest row none acc
    rw [h0]
  · rfl

theorem claim_C8_row_fallback_amended_witness :
    (findAttr [⟨rAttr, ['x']⟩] rAttr = some ['x'] ∧ goAtoi ['x'] = none) ∧
    (readSheetLoop [] [XmlToken.start rowName [⟨rAttr, ['x']⟩]] 7 none []
       = readSheetLoop [] [] 7 none [] ∧
     readSheetLoop [] [XmlToken.close rowName] 7 none []
       = readSheetLoop [] [] 0 none []) :=
  ⟨⟨by decide, by decide⟩,
   claim_C8_row_fallback_amended [] [⟨rAttr, ['x']⟩] [] [] 7 [] []
     (Or.inr ⟨['x'], by decide, by decide⟩)⟩

theorem mainLoop_spec (zip : Container) (items : List (List Char)) :
    ∀ (catalog : List SheetDesc) (data : List CellData) (fails : List (List Char)),
      (∀ d ∈ catalog, ReadSheetData zip (sheetMemberName d.id) items ≠ .panicked) →
      mainLoop zip items catalog data fails
        = .done (data ++ catalog.flatMap (sheetContribution zip items))
            (fails ++ (catalog.filter
              (fun d => !(ReadSheetData zip (sheetMemberName d.id) items).isOk)).map
              SheetDesc.name) := by
  intro catalog
  induction catalog with
  | nil =>
    intro data fails _
    simp [mainLoop]
  | cons d rest ih =>
    intro data fails h
    have e : mainLoop zip items (d :: rest) data fails
        = (match ReadSheetData zip (sheetMemberName d.id) items with
           | SheetResult.panicked => RunResult.panicked
           | SheetResult.err => mainLoop zip items rest data (fails ++ [d.name])
           | SheetResult.ok records =>
             mainLoop zip items rest
               (data ++ records.map (annotate d.name
                 (preAllocateMergedCells (ReadMergedCells zip (sheetMemberName d.id)))))
               fails) := rfl
    rcases hd : ReadSheetData zip (sheetMemberName d.id) items with recs | _ | _
    · have estep : mainLoop zip items (d :: rest) data fails
          = mainLoop zip items rest
              (data ++ recs.map (annotate d.name
                (preAllocateMergedCells (ReadMergedCells zip (sheetMemberName d.id)))))
              fails := by
        rw [e, hd]
      rw [estep, ih _ _ (fun q hq => h q (List.mem_cons_of_mem d hq))]
      congr 1
      · rw [List.flatMap_cons]
        have hc : sheetContribution zip items d
            = recs.map (annotate d.name
              (preAllocateMergedCells (ReadMergedCells zip (sheetMemberName d.id)))) := by
          unfold sheetContribution
          rw [hd]
        rw [hc, List.append_assoc]
      · rw [List.filter_cons]
        have hc : (!(ReadSheetData zip (sheetMemberName d.id) items).isOk) = false := by
          rw [hd]
          rfl
        rw [if_neg (by rw [hc]; exact Bool.false_ne_true)]
    · have estep : mainLoop zip items (d :: rest) data fails
          = mainLoop zip items rest data (fails ++ [d.name]) := by
        rw [e, hd]
      rw [estep, ih _ _ (fun q hq => h q (List.mem_cons_of_mem d hq))]
      congr 1
      · rw [List.flatMap_cons]
        have hc : sheetContribution zip items d = [] := by
          unfold sheetContribution
          rw [hd]
        rw [hc, List.nil_append]
      · rw [List.filter_cons]
        have hc : (!(ReadSheetData zip (sheetMemberName d.id) items).isOk) = true := by
          rw [hd]
          rfl
        rw [if_pos hc, List.map_cons]
        simp
    · exact absurd hd (h d (List.mem_cons_self d rest))

/-- C4: Per-sheet failure isolation.  For a catalog in which exactly one
sheet's member is missing from the container (the middle descriptor `dm`)
while every other sheet reads successfully, the extraction loop of `main`
completes, the aggregate holds exactly the present sheets' records (in
catalog order), and exactly one failure — the missing sheet's name — is
reported; the remaining sheets are never aborted. -/
theorem claim_C4_failure_isolation (zip : Container) (items : List (List Char))
    (pre post : List SheetDesc) (dm : SheetDesc)
    (hmiss : findMember zip (sheetMemberName dm.id) = none)
    (hok : ∀ d ∈ pre ++ post,
      ∃ recs, ReadSheetData zip (sheetMemberName d.id) items = .ok recs) :
    mainLoop zip items (pre ++ dm :: post) [] []
      = .done (pre.flatMap (sheetContribution zip items)
          ++ post.flatMap (sheetContribution zip items)) [dm.name] := by
  have hdm : ReadSheetData zip (sheetMemberName dm.id) items = .err := by
    unfold ReadSheetData
    rw [hmiss]
  have hnp : ∀ d ∈ pre ++ dm :: post,
      ReadSheetData zip (sheetMemberName d.id) items ≠ .panicked := by
    intro d hd
    rcases List.mem_append.mp hd with hp | hc
    · obtain ⟨recs, hr⟩ := hok d (List.mem_append.mpr (Or.inl hp))
      rw [hr]
      exact fun hcon => SheetResult.noConfusion hcon
    · rcases List.mem_cons.mp hc with rfl | hpost
      · rw [hdm]
        exact fun hcon => SheetResult.noConfusion hcon
      · obtain ⟨recs, hr⟩ := hok d (List.mem_append.mpr (Or.inr hpost))
        rw [hr]
        exact fun hcon => SheetResult.noConfusion hcon
  rw [mainLoop_spec zip items (pre ++ dm :: post) [] [] hnp]
  have hcdm : sheetContribution zip items dm = [] := by
    unfold sheetContribution
    rw [hdm]
  have hfpre : pre.filter
      (fun d => !(ReadSheetData zip (sheetMemberName d.id) items).isOk) = [] := by
    rw [List.filter_eq_nil_iff]
    intro d hd
    obtain ⟨recs, hr⟩ := hok d (List.mem_append.mpr (Or.inl hd))
    rw [hr]
    exact Bool.not_not_eq.mpr rfl
  have hfpost : post.filter
      (fun d => !(ReadSheetData zip (sheetMemberName d.id) items).isOk) = [] := by
    rw [List.filter_eq_nil_iff]
    intro d hd
    obtain ⟨recs, hr⟩ := hok d (List.mem_append.mpr (Or.inr hd))
    rw [hr]
    exact Bool.not_not_eq.mpr rfl
  congr 1
  · rw [List.nil_append, List.flatMap_append, List.flatMap_cons, hcdm,
      List.nil_append]
  · rw [List.nil_append, List.filter_append, List.filter_cons,
      if_pos (show (!(ReadSheetData zip (sheetMemberName dm.id) items).isOk) = true
        from by rw [hdm]; rfl),
      hfpre, hfpost]
    rfl

theorem claim_C4_failure_isolation_witness :
    findMember c4Zip (sheetMemberName ['2']) = none ∧
    mainLoop c4Zip [] [⟨['A'], ['1']⟩, ⟨['B'], ['2']⟩, ⟨['C'], ['3']⟩] [] []
      = .done (([⟨['A'], ['1']⟩] : List SheetDesc).flatMap (sheetContribution c4Zip [])
          ++ ([⟨['C'], ['3']⟩] : List SheetDesc).flatMap (sheetContribution c4Zip []))
          [['B']] :=
  ⟨by decide,
   claim_C4_failure_isolation c4Zip [] [⟨['A'], ['1']⟩] [⟨['C'], ['3']⟩]
     ⟨['B'], ['2']⟩ (by decide)
     (fun d hd => by
       rcases List.mem_append.mp hd with h1 | h2
       · rw [List.mem_singleton] at h1
         subst h1
         exact ⟨[], by decide⟩
       · rw [List.mem_singleton] at h2
         subst h2
         exact ⟨[⟨[], 2, 1, [], false, []⟩], by decide⟩)⟩

end XmlReaders
